import Mathlib

/-!
Verification of the LSTM demo repository: the dataset generator
(`DatasetGenerator` in the generator module) and the training-loop
controller (`LSTMApp` in `app.js`).

Modelling conventions:
* JavaScript numbers are modelled as exact rationals (`ℚ`); integer-valued
  fields (`samples`, `sequenceLength`, `seed`, counts) as `ℤ`/`ℕ`.
* The transcendental library functions `Math.sin`, `Math.cos`, `Math.sqrt`,
  `Math.log` and the constant `Math.PI` are opaque to every claim considered
  here, so they are supplied as an explicit parameter record `JsMath`; all
  definitions are computable once a concrete `JsMath` is given.
* A `throw` is modelled with `Except String`; `undefined`-style JavaScript
  values in the metric-extraction adapter are modelled with an explicit
  `JSVal` type.
* The Box-Muller rejection loop (`do … while (u1 <= 1e-10)`) is not
  structurally terminating, so it carries a fuel parameter and the generator
  returns `Option`; when `noiseStd = 0` the loop is never entered and
  generation always succeeds.
-/

/-- The opaque numeric library functions used by the generator
(`Math.sin`, `Math.cos`, `Math.sqrt`, `Math.log`, `Math.PI`). -/
structure JsMath where
  sin : ℚ → ℚ
  cos : ℚ → ℚ
  sqrt : ℚ → ℚ
  log : ℚ → ℚ
  pi : ℚ

/-- `GenerationConfig`: the eight-field input of `DatasetGenerator.generate`
(generator module, lines 33–42). -/
structure GenerationConfig where
  samples : ℤ
  sequenceLength : ℤ
  seed : ℤ
  noiseStd : ℚ
  ampMin : ℚ
  ampMax : ℚ
  freqMin : ℚ
  freqMax : ℚ

/-- `SampleMeta`: the latent parameters recorded per sample
(generator module, lines 79–84). -/
structure SampleMeta where
  sampleId : ℕ
  amplitude : ℚ
  frequency : ℚ
  phase : ℚ

/-- `DatasetStats` (generator module, lines 89–105).  The JavaScript object
literal at lines 97–104 is modelled as an association list so that which
keys it carries is part of the model. -/
structure DatasetStats where
  min : ℚ
  max : ℚ
  mean : ℚ
  std : ℚ
  samplesCount : ℤ
  sequenceLength : ℤ
  generatedAt : String
  config : List (String × ℚ)

/-- The `Dataset` returned by `generate` (generator module, lines 107–112). -/
structure Dataset where
  sequences : List (List ℚ)
  targets : List ℚ
  metadata : List SampleMeta
  stats : DatasetStats

/-- One iteration's worth of pushes of the sample loop (lines 77–84):
the sequence, the target and the metadata entry produced for one sample. -/
structure GenSample where
  sequence : List ℚ
  target : ℚ
  meta : SampleMeta

/-- `DatasetGenerator.seededRandom` (lines 12–17): the closure captures a
counter starting at `seed` and post-increments it on every call; the k-th
value drawn from counter state `c` is `frac (Math.sin c * 10000)`.
`draw M c` is the value produced when the counter is `c`. -/
def draw (M : JsMath) (c : ℤ) : ℚ :=
  M.sin (c : ℚ) * 10000 - (⌊M.sin (c : ℚ) * 10000⌋ : ℤ)

/-- `DatasetGenerator.gaussianRandom` (lines 120–128): Box-Muller transform.
Draws `u1` at the current counter, redrawing while `u1 <= 1e-10`, then draws
`u2` and returns `sqrt(-2 ln u1) * cos(2 pi u2)` together with the counter
after the two (or more) consumed draws.  The rejection loop is given fuel;
`none` models the (unbounded) case where the fuel is exhausted. -/
def gaussianRandom (M : JsMath) : ℕ → ℤ → Option (ℚ × ℤ)
  | 0, _ => none
  | fuel + 1, c =>
    let u1 := draw M c
    if u1 ≤ 1 / 10 ^ 10 then gaussianRandom M fuel (c + 1)
    else
      let u2 := draw M (c + 1)
      some (M.sqrt (-2 * M.log u1) * M.cos (2 * M.pi * u2), c + 2)

/-- The inner time-step loop of `generate` (lines 60–71): for each `t` in the
given list produce `amplitude * sin(2 pi frequency t + phase)`, plus
`gaussianRandom(random) * noiseStd` when `noiseStd > 0`.  Threads the RNG
counter; the counter is unchanged when `noiseStd = 0` (no draw occurs). -/
def genSeqAux (M : JsMath) (fuel : ℕ) (amplitude frequency phase noiseStd : ℚ) :
    List ℕ → ℤ → Option (List ℚ × ℤ)
  | [], c => some ([], c)
  | t :: ts, c =>
    let base := amplitude * M.sin (2 * M.pi * frequency * (t : ℚ) + phase)
    if 0 < noiseStd then
      match gaussianRandom M fuel c with
      | none => none
      | some (g, c') =>
        match genSeqAux M fuel amplitude frequency phase noiseStd ts c' with
        | none => none
        | some (rest, c'') => some ((base + g * noiseStd) :: rest, c'')
    else
      match genSeqAux M fuel amplitude frequency phase noiseStd ts c with
      | none => none
      | some (rest, c') => some (base :: rest, c')

/-- The sample loop of `generate` (lines 53–85): for each sample index draw
amplitude, frequency, phase (three sequential draws), generate the sequence,
and compute the noise-free target at `t = sequenceLength`. -/
def genSamplesAux (M : JsMath) (fuel : ℕ) (cfg : GenerationConfig) :
    List ℕ → ℤ → Option (List GenSample × ℤ)
  | [], c => some ([], c)
  | i :: is, c =>
    let amplitude := cfg.ampMin + draw M c * (cfg.ampMax - cfg.ampMin)
    let frequency := cfg.freqMin + draw M (c + 1) * (cfg.freqMax - cfg.freqMin)
    let phase := draw M (c + 2) * 2 * M.pi
    match genSeqAux M fuel amplitude frequency phase cfg.noiseStd
        (List.range cfg.sequenceLength.toNat) (c + 3) with
    | none => none
    | some (seq, c') =>
      let targetValue :=
        amplitude * M.sin (2 * M.pi * frequency * (cfg.sequenceLength : ℚ) + phase)
      match genSamplesAux M fuel cfg is c' with
      | none => none
      | some (rest, c'') =>
        some ({ sequence := seq, target := targetValue,
                meta := { sampleId := i, amplitude := amplitude,
                          frequency := frequency, phase := phase } } :: rest, c'')

/-- `values.reduce((a, b) => a + b, 0)` (lines 92 and 136). -/
def jsSum (l : List ℚ) : ℚ := l.foldl (· + ·) 0

/-- `Math.min(...allValues)` (line 90).  `Math.min()` of an empty spread is
`+Infinity`; the empty case never arises for a validated configuration and is
modelled as `0`. -/
def jsMin : List ℚ → ℚ
  | [] => 0
  | x :: xs => xs.foldl min x

/-- `Math.max(...allValues)` (line 91), analogously to `jsMin`. -/
def jsMax : List ℚ → ℚ
  | [] => 0
  | x :: xs => xs.foldl max x

/-- `DatasetGenerator.calculateStd` (lines 135–139): population standard
deviation, `sqrt(mean((x - mean)^2))`. -/
def calculateStd (M : JsMath) (values : List ℚ) : ℚ :=
  let mean := jsSum values / values.length
  let variance := values.foldl (fun a b => a + (b - mean) ^ 2) 0 / values.length
  M.sqrt variance

/-- The `config` object literal stored inside `stats` (lines 97–104): it
carries exactly the six keys `seed`, `noiseStd`, `ampMin`, `ampMax`,
`freqMin`, `freqMax`. -/
def statsConfig (cfg : GenerationConfig) : List (String × ℚ) :=
  [("seed", (cfg.seed : ℚ)), ("noiseStd", cfg.noiseStd),
   ("ampMin", cfg.ampMin), ("ampMax", cfg.ampMax),
   ("freqMin", cfg.freqMin), ("freqMax", cfg.freqMax)]

/-- `DatasetGenerator.generate` (lines 32–113).  `now` is the value of
`new Date().toISOString()` at line 96 — the only non-deterministic input.
The counter-threaded sample loop starts at `cfg.seed`. -/
def generate (M : JsMath) (fuel : ℕ) (cfg : GenerationConfig) (now : String) :
    Option Dataset :=
  match genSamplesAux M fuel cfg (List.range cfg.samples.toNat) cfg.seed with
  | none => none
  | some (samples, _) =>
    let sequences := samples.map (·.sequence)
    let targets := samples.map (·.target)
    let metadata := samples.map (·.meta)
    let allValues := sequences.flatten
    some
      { sequences := sequences, targets := targets, metadata := metadata,
        stats :=
          { min := jsMin allValues, max := jsMax allValues,
            mean := jsSum allValues / allValues.length,
            std := calculateStd M allValues,
            samplesCount := cfg.samples, sequenceLength := cfg.sequenceLength,
            generatedAt := now, config := statsConfig cfg } }

/-- `LSTMApp.validateConfig` (app.js lines 283–291): the seven checks in
source order; the first failing check's message is thrown. -/
def validateConfig (cfg : GenerationConfig) : Except String Unit :=
  if cfg.samples < 1 then .error "Samples must be at least 1"
  else if cfg.sequenceLength < 1 then .error "Sequence length must be at least 1"
  else if cfg.noiseStd < 0 then .error "Noise std must be non-negative"
  else if cfg.ampMax ≤ cfg.ampMin then .error "Amplitude min must be less than max"
  else if cfg.freqMax ≤ cfg.freqMin then .error "Frequency min must be less than max"
  else if cfg.ampMin < 0 then .error "Amplitude must be positive"
  else if cfg.freqMin < 0 then .error "Frequency must be positive"
  else .ok ()

/-- A configuration accepted by `LSTMApp.validateConfig`. -/
def ValidConfig (cfg : GenerationConfig) : Prop :=
  (validateConfig cfg).isOk = true

instance (cfg : GenerationConfig) : Decidable (ValidConfig cfg) := by
  unfold ValidConfig; infer_instance

/-- The generation path of `LSTMApp.handleGenerate` (app.js lines 240–245):
`validateConfig(config)` is called before `DatasetGenerator.generate(config)`,
so a validation failure yields the thrown message and no dataset at all. -/
def handleGenerate (M : JsMath) (fuel : ℕ) (cfg : GenerationConfig)
    (now : String) : Except String (Option Dataset) := do
  _ ← validateConfig cfg
  pure (generate M fuel cfg now)

/-! ### Subset sampler (app.js lines 522–536) -/

/-- The destructuring swap `[indices[i], indices[j]] = [indices[j], indices[i]]`
(app.js line 529).  For out-of-range indices the source would corrupt the
array; under `Math.random()`'s contract (`0 ≤ r < 1`) both indices are always
in range, and the out-of-range case is modelled as a no-op. -/
def listSwap {α : Type} (l : List α) (i j : ℕ) : List α :=
  match l[i]?, l[j]? with
  | some a, some b => (l.set i b).set j a
  | _, _ => l

/-- The Fisher–Yates loop of app.js lines 527–530: `i` runs from
`indices.length - 1` down to `1`; the `k`-th call of `Math.random()` is
`rand k`, and `j = Math.floor(rand k * (i + 1))`. -/
def fisherYatesAux (rand : ℕ → ℚ) : ℕ → List ℕ → ℕ → List ℕ
  | _, l, 0 => l
  | k, l, i + 1 =>
    let j := (⌊rand k * ((i : ℚ) + 2)⌋).toNat
    fisherYatesAux rand (k + 1) (listSwap l (i + 1) j) i

/-- The whole shuffle: start with `i = indices.length - 1`. -/
def fisherYates (rand : ℕ → ℚ) (l : List ℕ) : List ℕ :=
  fisherYatesAux rand 0 l (l.length - 1)

/-- `Math.min(100, Math.max(1, subsetPercent))` (app.js line 523). -/
def clampPercent (p : ℤ) : ℤ := min 100 (max 1 p)

/-- Round a rational to the nearest integer, ties to even — the IEEE-754
round-to-nearest-even rule at integer granularity. -/
def roundHalfEven (x : ℚ) : ℤ :=
  if x - ⌊x⌋ < 1 / 2 then ⌊x⌋
  else if 1 / 2 < x - ⌊x⌋ then ⌊x⌋ + 1
  else if 2 ∣ ⌊x⌋ then ⌊x⌋ else ⌊x⌋ + 1

/-- The exact rational value of rounding a real to an IEEE-754 binary64
double: 53 significant bits, round to nearest, ties to even.  JavaScript
numbers are doubles, so every arithmetic operation rounds its exact result
with this function.  For `0 < q` with `2^e ≤ q < 2^(e+1)` the representable
neighbours are spaced `2^(e-52)`, so the scaled significand `q * 2^(52-e)`
is rounded to an integer, ties to even, and scaled back.  Zero maps to zero
and negative values mirror; overflow and subnormals are not modelled (the
values arising below are far from both). -/
def roundDouble (q : ℚ) : ℚ :=
  if q = 0 then 0
  else if 0 < q then
    ((roundHalfEven (q * (2 : ℚ) ^ ((52 : ℤ) - Int.log 2 q)) : ℤ) : ℚ)
      * (2 : ℚ) ^ (Int.log 2 q - 52)
  else
    -(((roundHalfEven (-q * (2 : ℚ) ^ ((52 : ℤ) - Int.log 2 (-q))) : ℤ) : ℚ)
      * (2 : ℚ) ^ (Int.log 2 (-q) - 52))

/-- `Math.max(1, Math.floor(allSequences.length * (pct / 100)))`
(app.js line 524), as a natural count (the value is always ≥ 1).  The two
arithmetic operations are IEEE double operations: `pct / 100` rounds the
exact quotient to a double, and the product of the (exactly representable)
length `n` with that double rounds again; `Math.floor` and `Math.max` are
exact.  Because of the two roundings this count can be one less than the
exact-rational `max 1 ⌊n * p / 100⌋`: e.g. `n = 50`, `p = 58` computes
`50 * 0.58 = 28.999999999999996` and selects 28 samples, not 29. -/
def subsetCount (n : ℕ) (p : ℤ) : ℕ :=
  (max 1 ⌊roundDouble ((n : ℚ) * roundDouble ((clampPercent p : ℚ) / 100))⌋).toNat

/-- `indices.slice(0, subsetCount)` of the shuffled index list
(app.js lines 526–531). -/
def subsetIndices (rand : ℕ → ℚ) (n : ℕ) (p : ℤ) : List ℕ :=
  (fisherYates rand (List.range n)).take (subsetCount n p)

/-- `chosen.map(i => allSequences[i])` and `chosen.map(i => allTargets[i])`
(app.js lines 532–533).  Out-of-range access (JavaScript `undefined`) is
modelled by `getD` defaults; under the theorems' hypotheses every chosen
index is in range. -/
def subsetSample (rand : ℕ → ℚ) (sequences : List (List ℚ)) (targets : List ℚ)
    (p : ℤ) : List (List ℚ) × List ℚ :=
  let chosen := subsetIndices rand sequences.length p
  (chosen.map (fun i => sequences.getD i []),
   chosen.map (fun i => targets.getD i 0))

/-! ### Training preparation (app.js lines 453–549) -/

/-- `TrainingConfig` as read in `handleStartTraining` (app.js lines 477–485). -/
structure TrainingConfig where
  units : ℤ
  batchSize : ℤ
  epochs : ℤ
  learningRate : ℚ
  validationSplit : ℚ
  lowCpu : Bool
  subsetPercent : ℤ

/-- The training-config checks of `handleStartTraining` (app.js lines
468–472), in source order.  (`Number.isNaN` has no counterpart for exact
rationals; the range checks are the modelled content.) -/
def validateTrainingConfig (t : TrainingConfig) : Except String Unit :=
  if t.units ≤ 0 then .error "Invalid LSTM units"
  else if t.batchSize ≤ 0 then .error "Invalid batch size"
  else if t.epochs ≤ 0 then .error "Invalid epochs"
  else if t.learningRate ≤ 0 then .error "Invalid learning rate"
  else if t.validationSplit < 0 ∨ 1 ≤ t.validationSplit then .error "Invalid validation split"
  else .ok ()

/-- The data-preparation path of a training run: the `handleStartTraining`
validation followed by `trainModel`'s subset selection (app.js lines 519–536)
and z-score normalization into `xs`/`ys` (app.js lines 538–545).  Note the
source contains no check whatsoever on `stats.std` before the divisions
`(v - mean) / std`: there is no error branch between validation and the
normalized tensors. -/
def prepareTraining (rand : ℕ → ℚ) (d : Dataset) (t : TrainingConfig) :
    Except String (List (List (List ℚ)) × List ℚ) := do
  _ ← validateTrainingConfig t
  let st := if t.lowCpu then subsetSample rand d.sequences d.targets t.subsetPercent
            else (d.sequences, d.targets)
  let xs := st.1.map (fun seq =>
    (seq.map (fun v => (v - d.stats.mean) / d.stats.std)).map (fun val => [val]))
  let ys := st.2.map (fun t => (t - d.stats.mean) / d.stats.std)
  pure (xs, ys)

/-! ### Metric extraction and the epoch loop (app.js lines 24–47, 580–636) -/

/-- JavaScript values as far as `_extractHistoryMetric` and the
"Ensure numbers" coercion (app.js lines 601–604) can observe them.
`tensor` stands for any object exposing a `dataSync()` method. -/
inductive JSVal where
  | num (q : ℚ)
  | str (s : String)
  | arr (elems : List JSVal)
  | tensor (data : List ℚ)
  | obj (fields : List (String × JSVal))
  | null
  | undefined

/-- `typeof v === 'number'`. -/
def isNumber : JSVal → Bool
  | .num _ => true
  | _ => false

/-- `Array.isArray(v)`. -/
def isArray : JSVal → Bool
  | .arr _ => true
  | _ => false

/-- `v === undefined`. -/
def isUndef : JSVal → Bool
  | .undefined => true
  | _ => false

/-- JavaScript truthiness of the modelled values (`NaN` is not modelled;
see `jsToNumber`). -/
def truthy : JSVal → Bool
  | .num q => !(q = 0 : Bool)
  | .str s => !(s = "" : Bool)
  | .arr _ => true
  | .tensor _ => true
  | .obj _ => true
  | .null => false
  | .undefined => false

/-- Property access `v[k]`: a lookup on plain objects, `undefined` on every
other modelled value (primitives box without the named property; `tensor`s
and arrays carry none of the metric keys used here). -/
def getField : JSVal → String → JSVal
  | .obj fields, k =>
    match fields.find? (fun p => p.1 == k) with
    | some p => p.2
    | none => .undefined
  | _, _ => .undefined

/-- The `key in obj` test.  `none` models the `TypeError` thrown when the
right operand is a primitive (caught by `_extractHistoryMetric`'s
`try`/`catch`). -/
def keyIn (k : String) : JSVal → Option Bool
  | .obj fields => some (fields.any (fun p => p.1 == k))
  | .arr _ => some false
  | .tensor _ => some false
  | _ => none

/-- `arr[arr.length - 1]`: `undefined` for an empty array. -/
def lastElem : JSVal → JSVal
  | .arr [] => .undefined
  | .arr (x :: xs) => (x :: xs).getLast (by simp)
  | _ => .undefined

/-- `val.dataSync()[0]`: the first element of the tensor's data,
`undefined` when empty. -/
def dataSyncFirst : List ℚ → JSVal
  | [] => .undefined
  | x :: _ => .num x

/-- `LSTMApp._extractHistoryMetric` (app.js lines 24–47), step by step:
prefer `historyObj.history[key]` (last element if an array), else the direct
field `historyObj[key]` (tensor → `dataSync()[0]`, array → last element),
with the `try`/`catch` returning `undefined` on a thrown `TypeError`. -/
def extractHistoryMetric (h : JSVal) (key : String) : JSVal :=
  let fallback :=
    -- const val = historyObj && historyObj[key];
    let val := if truthy h then getField h key else h
    if isUndef val || (val matches .null) then .undefined
    else match val with
      | .tensor data => dataSyncFirst data
      | .arr l => lastElem (.arr l)
      | v => v
  let hh := getField h "history"
  if truthy h && truthy hh then
    match keyIn key hh with
    | none => .undefined            -- `key in primitive` threw; caught
    | some true =>
      let a := getField hh key
      if isArray a then lastElem a else a
    | some false => fallback
  else fallback

/-- The environment of the metric adapter: how `Number(string)` parses
(`none` models `NaN`). -/
structure JsEnv where
  parseNum : String → Option ℚ

/-- `Number(v)` on the values the coercion line can reach; `none` models
`NaN`.  (`Number` of a singleton array coerces its element, of a longer
array is `NaN`, of `null` is `0`.) -/
def jsToNumber (env : JsEnv) : JSVal → Option ℚ
  | .num q => some q
  | .str s => env.parseNum s
  | .null => some 0
  | .undefined => none
  | .tensor _ => none
  | .obj _ => none
  | .arr [] => some 0
  | .arr [x] => jsToNumber env x
  | .arr (_ :: _ :: _) => none

/-- The "Ensure numbers" coercion (app.js lines 601–604):
`typeof x === 'number' ? x : (Array.isArray(x) ? x[x.length - 1] : Number(x) || 0)`.
Note the array branch records the raw last element with no further
coercion. -/
def ensureNumber (env : JsEnv) (v : JSVal) : JSVal :=
  if isNumber v then v
  else if isArray v then lastElem v
  else .num ((jsToNumber env v).getD 0)

/-- `this._extractHistoryMetric(history, 'loss')` (app.js line 590). -/
def extractTrainLoss (h : JSVal) : JSVal := extractHistoryMetric h "loss"

/-- Lines 591 and 596: `'val_loss'`, falling back to `'valLoss'` when the
first extraction is `undefined`. -/
def extractValLoss (h : JSVal) : JSVal :=
  let v := extractHistoryMetric h "val_loss"
  if isUndef v then extractHistoryMetric h "valLoss" else v

/-- Lines 592 and 597: `'mae'`, falling back to
`'meanAbsoluteError' || 'mae'` when the first extraction is `undefined`. -/
def extractTrainMAE (h : JSVal) : JSVal :=
  let v := extractHistoryMetric h "mae"
  if isUndef v then
    let w := extractHistoryMetric h "meanAbsoluteError"
    if truthy w then w else extractHistoryMetric h "mae"
  else v

/-- Lines 593 and 598: `'val_mae'`, falling back to
`'valMeanAbsoluteError' || 'val_mae'`. -/
def extractValMAE (h : JSVal) : JSVal :=
  let v := extractHistoryMetric h "val_mae"
  if isUndef v then
    let w := extractHistoryMetric h "valMeanAbsoluteError"
    if truthy w then w else extractHistoryMetric h "val_mae"
  else v

/-- The value pushed onto `trainLosses` for one epoch (lines 590, 601, 606). -/
def recordedTrainLoss (env : JsEnv) (h : JSVal) : JSVal :=
  ensureNumber env (extractTrainLoss h)

/-- The value pushed onto `valLosses` (lines 591, 596, 602, 607). -/
def recordedValLoss (env : JsEnv) (h : JSVal) : JSVal :=
  ensureNumber env (extractValLoss h)

/-- The value pushed onto `trainMAEs` (lines 592, 597, 603, 608). -/
def recordedTrainMAE (env : JsEnv) (h : JSVal) : JSVal :=
  ensureNumber env (extractTrainMAE h)

/-- The value pushed onto `valMAEs` (lines 593, 598, 604, 609). -/
def recordedValMAE (env : JsEnv) (h : JSVal) : JSVal :=
  ensureNumber env (extractValMAE h)

/-- `LSTMApp.handleStopTraining` (app.js lines 500–503): sets
`this.stopTraining = true` whatever its previous value. -/
def handleStopTraining (_flag : Bool) : Bool := true

/-- The two terminal states of a run (app.js lines 630–636): the stopped
branch (`Training stopped`) versus the completed branch
(`Training completed`). -/
inductive RunStatus where
  | completed
  | stopped
deriving DecidableEq

/-- The observable outcome of one `trainModel` run: the four metric-history
arrays (app.js lines 573–576) and the terminal status. -/
structure RunResult where
  trainLosses : List JSVal
  valLosses : List JSVal
  trainMAEs : List JSVal
  valMAEs : List JSVal
  status : RunStatus

/-- The epoch loop of `trainModel` (app.js lines 580–636):
`for (let epoch = 0; epoch < config.epochs && !this.stopTraining; epoch++)`.
`fit e` is the opaque result of `await model.fit(...)` for epoch `e`;
`stopDuring e = true` models `handleStopTraining` firing at one of the two
suspension points inside iteration `e` (the `model.fit` await or the
end-of-iteration yield) — JavaScript being single-threaded, those are the
only places the flag can change, so it is observed at the next loop check.
Arguments: current epoch index, remaining iterations, current flag. -/
def trainLoopAux (env : JsEnv) (fit : ℕ → JSVal) (stopDuring : ℕ → Bool) :
    ℕ → ℕ → Bool → RunResult
  | _, 0, flag =>
    { trainLosses := [], valLosses := [], trainMAEs := [], valMAEs := [],
      status := if flag then .stopped else .completed }
  | e, r + 1, flag =>
    if flag then
      { trainLosses := [], valLosses := [], trainMAEs := [], valMAEs := [],
        status := .stopped }
    else
      let h := fit e
      let flag' := if stopDuring e then handleStopTraining flag else flag
      let rest := trainLoopAux env fit stopDuring (e + 1) r flag'
      { trainLosses := recordedTrainLoss env h :: rest.trainLosses,
        valLosses := recordedValLoss env h :: rest.valLosses,
        trainMAEs := recordedTrainMAE env h :: rest.trainMAEs,
        valMAEs := recordedValMAE env h :: rest.valMAEs,
        status := rest.status }

/-- One `trainModel` run (app.js lines 508–636): `prevStopFlag` is whatever
`this.stopTraining` held when the run started; line 516
(`this.stopTraining = false`) resets it before the epoch loop. -/
def trainModel (env : JsEnv) (fit : ℕ → JSVal) (stopDuring : ℕ → Bool)
    (epochs : ℕ) (prevStopFlag : Bool) : RunResult :=
  -- this.stopTraining = false;  (line 516)
  let _reset := prevStopFlag
  trainLoopAux env fit stopDuring 0 epochs false

/-! ### Spec-side recomputations and concrete instances for witnesses -/

/-- Modelled from the spec: the population mean, "direct recomputation from
the flattened values" (spec §8). -/
def specMean (l : List ℚ) : ℚ := l.sum / l.length

/-- Modelled from the spec: the population standard deviation, recomputed
directly as the square root of the mean squared deviation. -/
def specStd (M : JsMath) (l : List ℚ) : ℚ :=
  M.sqrt ((l.map (fun x => (x - specMean l) ^ 2)).sum / l.length)

/-- A concrete `JsMath` interpretation (every transcendental returns 0)
used to evaluate the model on closed inputs. -/
def M₀ : JsMath :=
  { sin := fun _ => 0, cos := fun _ => 0, sqrt := fun _ => 0,
    log := fun _ => 0, pi := 0 }

/-- A concrete valid configuration. -/
def cfg0 : GenerationConfig :=
  { samples := 1, sequenceLength := 1, seed := 0, noiseStd := 0,
    ampMin := 1, ampMax := 2, freqMin := 1, freqMax := 2 }

/-- The dataset `generate M₀ 1 cfg0 "t"` evaluates to. -/
def dsW : Dataset :=
  { sequences := [[0]], targets := [0],
    metadata := [{ sampleId := 0, amplitude := 1, frequency := 1, phase := 0 }],
    stats :=
      { min := 0, max := 0, mean := 0, std := 0, samplesCount := 1,
        sequenceLength := 1, generatedAt := "t",
        config := [("seed", 0), ("noiseStd", 0), ("ampMin", 1), ("ampMax", 2),
                   ("freqMin", 1), ("freqMax", 2)] } }

/-- An invalid configuration: `samples = 0`. -/
def cfgBad : GenerationConfig :=
  { samples := 0, sequenceLength := 1, seed := 0, noiseStd := 0,
    ampMin := 1, ampMax := 2, freqMin := 1, freqMax := 2 }

/-- A concrete valid training configuration. -/
def tcfg0 : TrainingConfig :=
  { units := 1, batchSize := 1, epochs := 1, learningRate := 1,
    validationSplit := 0, lowCpu := false, subsetPercent := 20 }

/-- A concrete environment for the metric adapter: no string parses. -/
def env₀ : JsEnv := { parseNum := fun _ => none }

/-- A fit-history value whose `loss` entry is a nested array with a
non-numeric innermost element. -/
def badHistory : JSVal :=
  .obj [("history", .obj [("loss", .arr [.arr [.str "oops"]])])]

/-- An extracted metric value whose coerced form is guaranteed numeric:
anything that is not an array, or an array whose last element is itself a
number.  (The coercion at app.js lines 601–604 records an array's last
element without further coercion, so arrays with a non-numeric — or
missing — last element are exactly the unsafe shapes.) -/
def safeExtract (v : JSVal) : Prop :=
  isArray v = false ∨ isNumber (lastElem v) = true

instance (v : JSVal) : Decidable (safeExtract v) := by
  unfold safeExtract; infer_instance

/-- A well-formed fit-history value of the shapes the external library
documents: `loss` as a size-1 array of numbers, `val_loss` as a scalar. -/
def goodHistory : JSVal :=
  .obj [("history", .obj [("loss", .arr [.num 1]), ("val_loss", .num 2)])]

/-! ### Basic facts about validated configurations -/

theorem validConfig_facts {cfg : GenerationConfig} (h : ValidConfig cfg) :
    1 ≤ cfg.samples ∧ 1 ≤ cfg.sequenceLength ∧ 0 ≤ cfg.noiseStd ∧
    cfg.ampMin < cfg.ampMax ∧ cfg.freqMin < cfg.freqMax ∧
    0 ≤ cfg.ampMin ∧ 0 ≤ cfg.freqMin := by
  unfold ValidConfig validateConfig at h
  split_ifs at h with h1 h2 h3 h4 h5 h6 h7
  all_goals simp [Except.isOk, Except.toBool] at h
  exact ⟨by omega, by omega, not_lt.mp h3, not_le.mp h4, not_le.mp h5,
    not_lt.mp h6, not_lt.mp h7⟩

/-! ### C1: determinism of `generate` -/

/-- C1: For every valid `GenerationConfig` (with its fixed seed), two
independent calls of `generate` — which may observe different wall-clock
timestamps `now₁`, `now₂` — produce identical `sequences`, identical
`targets` and identical `metadata`: the only nondeterministic input,
the timestamp, influences nothing but `stats.generatedAt`, and each call
builds its own seeded RNG from `cfg.seed`. -/
theorem generate_deterministic (M : JsMath) (fuel : ℕ) (cfg : GenerationConfig)
    (now₁ now₂ : String) (_hval : ValidConfig cfg) :
    (generate M fuel cfg now₁).map Dataset.sequences
      = (generate M fuel cfg now₂).map Dataset.sequences
    ∧ (generate M fuel cfg now₁).map Dataset.targets
      = (generate M fuel cfg now₂).map Dataset.targets
    ∧ (generate M fuel cfg now₁).map Dataset.metadata
      = (generate M fuel cfg now₂).map Dataset.metadata := by
  rcases hg : genSamplesAux M fuel cfg (List.range cfg.samples.toNat) cfg.seed
    with _ | ⟨l, c⟩ <;> simp [generate, hg]

/-- Witness for C1 at a concrete configuration and two distinct timestamps. -/
theorem generate_deterministic_witness :
    (generate M₀ 1 cfg0 "2024-01-01").map Dataset.sequences
      = (generate M₀ 1 cfg0 "2024-01-02").map Dataset.sequences
    ∧ (generate M₀ 1 cfg0 "2024-01-01").map Dataset.targets
      = (generate M₀ 1 cfg0 "2024-01-02").map Dataset.targets
    ∧ (generate M₀ 1 cfg0 "2024-01-01").map Dataset.metadata
      = (generate M₀ 1 cfg0 "2024-01-02").map Dataset.metadata :=
  generate_deterministic M₀ 1 cfg0 "2024-01-01" "2024-01-02" (by decide)

/-! ### C2: validation failure for `samples = 0` -/

/-- C2: Generating with `samples = 0` fails validation with the message
"Samples must be at least 1" — which mentions "samples" (case-insensitively
as an infix) — and produces no dataset at all: `handleGenerate` returns the
error before `DatasetGenerator.generate` is invoked. -/
theorem generate_samples_zero_error (M : JsMath) (fuel : ℕ) (now : String)
    (cfg : GenerationConfig) (h : cfg.samples = 0) :
    handleGenerate M fuel cfg now = .error "Samples must be at least 1"
    ∧ "samples".toList <:+: ("Samples must be at least 1".toList.map Char.toLower) := by
  constructor
  · simp [handleGenerate, validateConfig, h]
  · decide

/-- Witness for C2 at the concrete configuration `cfgBad`. -/
theorem generate_samples_zero_error_witness :
    handleGenerate M₀ 1 cfgBad "t" = .error "Samples must be at least 1"
    ∧ "samples".toList <:+: ("Samples must be at least 1".toList.map Char.toLower) :=
  generate_samples_zero_error M₀ 1 "t" cfgBad rfl

/-- Concrete evaluation of the generator: with the trivial interpretation
`M₀` every drawn value and every sine value is `0`, so `cfg0` produces the
all-zero one-sample dataset `dsW` (whose standard deviation is `0`). -/
theorem generate_M0_eval : generate M₀ 1 cfg0 "t" = some dsW := by
  norm_num [generate, genSamplesAux, genSeqAux, draw, M₀, cfg0, dsW, jsMin,
    jsMax, jsSum, calculateStd, statsConfig, List.range_succ]

/-! ### C4: statistics bound the data and match direct recomputation -/

theorem foldl_min_le_init (l : List ℚ) : ∀ a : ℚ, l.foldl min a ≤ a := by
  induction l with
  | nil => intro a; simp
  | cons x xs ih => intro a; exact le_trans (ih (min a x)) (min_le_left a x)

theorem foldl_min_le_mem (l : List ℚ) : ∀ (a v : ℚ), v ∈ l → l.foldl min a ≤ v := by
  induction l with
  | nil => intro a v hv; cases hv
  | cons x xs ih =>
    intro a v hv
    rcases List.mem_cons.mp hv with rfl | hv
    · exact le_trans (foldl_min_le_init xs (min a v)) (min_le_right a v)
    · exact ih (min a x) v hv

theorem jsMin_le {l : List ℚ} {v : ℚ} (hv : v ∈ l) : jsMin l ≤ v := by
  cases l with
  | nil => cases hv
  | cons x xs =>
    rcases List.mem_cons.mp hv with rfl | hv
    · exact foldl_min_le_init xs v
    · exact foldl_min_le_mem xs x v hv

theorem init_le_foldl_max (l : List ℚ) : ∀ a : ℚ, a ≤ l.foldl max a := by
  induction l with
  | nil => intro a; simp
  | cons x xs ih => intro a; exact le_trans (le_max_left a x) (ih (max a x))

theorem mem_le_foldl_max (l : List ℚ) : ∀ (a v : ℚ), v ∈ l → v ≤ l.foldl max a := by
  induction l with
  | nil => intro a v hv; cases hv
  | cons x xs ih =>
    intro a v hv
    rcases List.mem_cons.mp hv with rfl | hv
    · exact le_trans (le_max_right a v) (init_le_foldl_max xs (max a v))
    · exact ih (max a x) v hv

theorem le_jsMax {l : List ℚ} {v : ℚ} (hv : v ∈ l) : v ≤ jsMax l := by
  cases l with
  | nil => cases hv
  | cons x xs =>
    rcases List.mem_cons.mp hv with rfl | hv
    · exact init_le_foldl_max xs v
    · exact mem_le_foldl_max xs x v hv

/-- C4: For every dataset produced by `generate`, every value of every
sequence lies between `stats.min` and `stats.max`, and `stats.mean` and
`stats.std` equal the direct recomputation of the population mean and the
population standard deviation over the flattened concatenation of all
sequence values (`sequences.flat()`); targets enter none of the four
statistics, which are recomputed here from `d.sequences` alone. -/
theorem stats_bound_and_recompute (M : JsMath) (fuel : ℕ) (cfg : GenerationConfig)
    (now : String) (d : Dataset) (hgen : generate M fuel cfg now = some d) :
    (∀ v ∈ d.sequences.flatten, d.stats.min ≤ v ∧ v ≤ d.stats.max)
    ∧ d.stats.mean = specMean d.sequences.flatten
    ∧ d.stats.std = specStd M d.sequences.flatten := by
  unfold generate at hgen
  split at hgen
  · exact absurd hgen (by simp)
  · rw [Option.some.injEq] at hgen
    subst hgen
    refine ⟨fun v hv => ⟨jsMin_le hv, le_jsMax hv⟩, ?_, ?_⟩
    · show jsSum _ / _ = specMean _
      unfold specMean jsSum
      rw [List.sum_eq_foldl]
    · show calculateStd M _ = specStd M _
      simp only [calculateStd, specStd, specMean, jsSum, List.sum_eq_foldl,
        List.foldl_map]

/-- Witness for C4: the statistics of the concrete dataset `dsW`. -/
theorem stats_bound_and_recompute_witness :
    (∀ v ∈ dsW.sequences.flatten, dsW.stats.min ≤ v ∧ v ≤ dsW.stats.max)
    ∧ dsW.stats.mean = specMean dsW.sequences.flatten
    ∧ dsW.stats.std = specStd M₀ dsW.sequences.flatten :=
  stats_bound_and_recompute M₀ 1 cfg0 "t" dsW generate_M0_eval

/-! ### C3: the per-sample value and target formulas -/

theorem genSeqAux_nonpos (M : JsMath) (fuel : ℕ) (a f p ns : ℚ) (hns : ¬ 0 < ns) :
    ∀ (ts : List ℕ) (c : ℤ),
      genSeqAux M fuel a f p ns ts c
        = some (ts.map (fun (t : ℕ) => a * M.sin (2 * M.pi * f * (t : ℚ) + p)), c) := by
  intro ts
  induction ts with
  | nil => intro c; rfl
  | cons t ts ih =>
    intro c
    simp only [genSeqAux, if_neg hns, ih, List.map_cons]

theorem genSeqAux_pos_getElem (M : JsMath) (fuel : ℕ) (a f p ns : ℚ) (hns : 0 < ns) :
    ∀ (ts : List ℕ) (c : ℤ) (s : List ℚ) (cend : ℤ),
      genSeqAux M fuel a f p ns ts c = some (s, cend) →
      ∀ k (hk : k < s.length), ∃ (hk' : k < ts.length) (c₀ : ℤ) (g : ℚ) (c₁ : ℤ),
        gaussianRandom M fuel c₀ = some (g, c₁) ∧
        s[k] = a * M.sin (2 * M.pi * f * ((ts[k] : ℕ) : ℚ) + p) + g * ns := by
  intro ts
  induction ts with
  | nil =>
    intro c s cend h k hk
    simp only [genSeqAux, Option.some.injEq, Prod.mk.injEq] at h
    obtain ⟨rfl, rfl⟩ := h
    simp at hk
  | cons t ts ih =>
    intro c s cend h k hk
    simp only [genSeqAux, if_pos hns] at h
    rcases hg : gaussianRandom M fuel c with _ | ⟨g, c₁⟩
    · simp [hg] at h
    · simp only [hg] at h
      rcases hrec : genSeqAux M fuel a f p ns ts c₁ with _ | ⟨rest, c₂⟩
      · simp [hrec] at h
      · simp only [hrec, Option.some.injEq, Prod.mk.injEq] at h
        obtain ⟨hs, -⟩ := h
        subst hs
        cases k with
        | zero => exact ⟨by simp, c, g, c₁, hg, by simp⟩
        | succ k =>
          have hk2 : k < rest.length := by simpa using hk
          obtain ⟨hk', c₀, g', c₁', hga, heq⟩ := ih c₁ rest c₂ hrec k hk2
          exact ⟨by simpa using hk', c₀, g', c₁', hga, by simpa using heq⟩

theorem genSamplesAux_getElem (M : JsMath) (fuel : ℕ) (cfg : GenerationConfig) :
    ∀ (is : List ℕ) (c : ℤ) (l : List GenSample) (cend : ℤ),
      genSamplesAux M fuel cfg is c = some (l, cend) →
      ∀ k (hk : k < l.length),
        l[k].target
          = l[k].meta.amplitude *
            M.sin (2 * M.pi * l[k].meta.frequency * (cfg.sequenceLength : ℚ)
              + l[k].meta.phase)
        ∧ ∃ (c₀ c₁ : ℤ),
            genSeqAux M fuel l[k].meta.amplitude l[k].meta.frequency
              l[k].meta.phase cfg.noiseStd
              (List.range cfg.sequenceLength.toNat) c₀
              = some (l[k].sequence, c₁) := by
  intro is
  induction is with
  | nil =>
    intro c l cend h k hk
    simp only [genSamplesAux, Option.some.injEq, Prod.mk.injEq] at h
    obtain ⟨rfl, rfl⟩ := h
    simp at hk
  | cons i is ih =>
    intro c l cend h k hk
    simp only [genSamplesAux] at h
    rcases hseq : genSeqAux M fuel (cfg.ampMin + draw M c * (cfg.ampMax - cfg.ampMin))
        (cfg.freqMin + draw M (c + 1) * (cfg.freqMax - cfg.freqMin))
        (draw M (c + 2) * 2 * M.pi) cfg.noiseStd
        (List.range cfg.sequenceLength.toNat) (c + 3) with _ | ⟨seq, c'⟩
    · simp [hseq] at h
    · simp only [hseq] at h
      rcases hrest : genSamplesAux M fuel cfg is c' with _ | ⟨rest, c''⟩
      · simp [hrest] at h
      · simp only [hrest, Option.some.injEq, Prod.mk.injEq] at h
        obtain ⟨hl, -⟩ := h
        subst hl
        cases k with
        | zero => exact ⟨rfl, c + 3, c', by simpa using hseq⟩
        | succ k =>
          have hk2 : k < rest.length := by simpa using hk
          obtain ⟨htar, c₀, c₁, hg⟩ := ih c' rest c'' hrest k hk2
          exact ⟨by simpa using htar, c₀, c₁, by simpa using hg⟩

theorem genSamplesAux_nonpos_counter (M : JsMath) (fuel : ℕ) (cfg : GenerationConfig)
    (hns : ¬ 0 < cfg.noiseStd) :
    ∀ (is : List ℕ) (c : ℤ),
      (genSamplesAux M fuel cfg is c).map Prod.snd
        = some (c + 3 * (is.length : ℤ)) := by
  intro is
  induction is with
  | nil => intro c; simp [genSamplesAux]
  | cons i is ih =>
    intro c
    have hih := ih (c + 3)
    rcases hrest : genSamplesAux M fuel cfg is (c + 3) with _ | ⟨rest, c₂⟩
    · rw [hrest] at hih; simp at hih
    · rw [hrest] at hih
      simp only [Option.map_some', Option.some.injEq] at hih
      simp only [genSamplesAux, genSeqAux_nonpos M fuel _ _ _ cfg.noiseStd hns,
        hrest, Option.map_some', Option.some.injEq, List.length_cons, hih]
      push_cast
      ring

/-- C3: For every sample `i` and step `t` of a generated dataset,
`targets[i]` is the noise-free value of the sample's sine at
`t = sequenceLength` (the target is never noised); when `noiseStd = 0`
`sequence[i][t]` is exactly `amplitude_i * sin(2 pi frequency_i t + phase_i)`
and no noise draw occurs (the RNG counter advances by exactly the three
parameter draws per sample, ending at `seed + 3 * samples`); when
`noiseStd > 0` the stored value is that base value plus
`g * noiseStd` for an output `g` of the Box-Muller `gaussianRandom`
fed from the seeded stream. -/
theorem sequence_target_noise_formula
    (M : JsMath) (fuel : ℕ) (cfg : GenerationConfig) (now : String)
    (d : Dataset) (i t : ℕ) (m : SampleMeta) (s : List ℚ) (v y : ℚ)
    (hval : ValidConfig cfg)
    (hgen : generate M fuel cfg now = some d)
    (hm : d.metadata[i]? = some m) (hs : d.sequences[i]? = some s)
    (hv : s[t]? = some v) (hy : d.targets[i]? = some y) :
    y = m.amplitude * M.sin (2 * M.pi * m.frequency * (cfg.sequenceLength : ℚ) + m.phase)
    ∧ (cfg.noiseStd = 0 →
        v = m.amplitude * M.sin (2 * M.pi * m.frequency * (t : ℚ) + m.phase))
    ∧ (0 < cfg.noiseStd →
        ∃ (c₀ : ℤ) (g : ℚ) (c₁ : ℤ), gaussianRandom M fuel c₀ = some (g, c₁)
          ∧ v = m.amplitude * M.sin (2 * M.pi * m.frequency * (t : ℚ) + m.phase)
              + g * cfg.noiseStd)
    ∧ (cfg.noiseStd = 0 →
        ∃ gl, genSamplesAux M fuel cfg (List.range cfg.samples.toNat) cfg.seed
            = some (gl, cfg.seed + 3 * cfg.samples)) := by
  unfold generate at hgen
  split at hgen
  · exact absurd hgen (by simp)
  · rename_i l cend heq
    rw [Option.some.injEq] at hgen
    have hseqs : d.sequences = l.map (·.sequence) := by rw [← hgen]
    have htgts : d.targets = l.map (·.target) := by rw [← hgen]
    have hmetas : d.metadata = l.map (·.meta) := by rw [← hgen]
    rw [hmetas, List.getElem?_map, Option.map_eq_some'] at hm
    rw [hseqs, List.getElem?_map, Option.map_eq_some'] at hs
    rw [htgts, List.getElem?_map, Option.map_eq_some'] at hy
    obtain ⟨smp, hsmp, hmeta⟩ := hm
    obtain ⟨smp2, hsmp2, hseq2⟩ := hs
    obtain ⟨smp3, hsmp3, htgt3⟩ := hy
    have e2 : smp2 = smp := by
      rw [hsmp] at hsmp2; exact (Option.some.inj hsmp2).symm
    have e3 : smp3 = smp := by
      rw [hsmp] at hsmp3; exact (Option.some.inj hsmp3).symm
    subst e2 e3
    obtain ⟨hi, hli⟩ := List.getElem?_eq_some_iff.mp hsmp
    have hmain := genSamplesAux_getElem M fuel cfg _ _ _ _ heq i hi
    rw [hli] at hmain
    obtain ⟨htar, c₀, c₁, hgseq⟩ := hmain
    subst hmeta hseq2 htgt3
    refine ⟨htar, ?_, ?_, ?_⟩
    · intro h0
      have hns : ¬ 0 < cfg.noiseStd := by rw [h0]; exact lt_irrefl 0
      rw [genSeqAux_nonpos M fuel _ _ _ _ hns] at hgseq
      rw [Option.some.injEq, Prod.mk.injEq] at hgseq
      obtain ⟨hseq', -⟩ := hgseq
      rw [← hseq'] at hv
      rw [List.getElem?_map, Option.map_eq_some'] at hv
      obtain ⟨tt, htt, hfn⟩ := hv
      obtain ⟨htL, hrt⟩ := List.getElem?_eq_some_iff.mp htt
      rw [List.getElem_range] at hrt
      subst hrt
      rw [← hfn]
    · intro hpos
      obtain ⟨hbound, hli2⟩ := List.getElem?_eq_some_iff.mp hv
      obtain ⟨htL', c₀', g, c₁', hga, heqv⟩ :=
        genSeqAux_pos_getElem M fuel _ _ _ _ hpos _ c₀ _ c₁ hgseq t hbound
      refine ⟨c₀', g, c₁', hga, ?_⟩
      rw [← hli2, heqv, List.getElem_range]
    · intro h0
      have hns : ¬ 0 < cfg.noiseStd := by rw [h0]; exact lt_irrefl 0
      have hcnt := genSamplesAux_nonpos_counter M fuel cfg hns
        (List.range cfg.samples.toNat) cfg.seed
      rcases hg2 : genSamplesAux M fuel cfg (List.range cfg.samples.toNat) cfg.seed
        with _ | ⟨l2, c2⟩
      · rw [hg2] at hcnt; simp at hcnt
      · rw [hg2] at hcnt
        simp only [Option.map_some', Option.some.injEq] at hcnt
        refine ⟨l2, ?_⟩
        rw [hcnt, List.length_range]
        have hs1 : (1:ℤ) ≤ cfg.samples := (validConfig_facts hval).1
        have htn : ((cfg.samples.toNat : ℤ)) = cfg.samples :=
          Int.toNat_of_nonneg (by omega)
        rw [htn]

/-- Witness for C3: the target of the one-sample dataset `dsW` satisfies the
noise-free sine formula at `t = sequenceLength`. -/
theorem sequence_target_noise_formula_witness :
    ValidConfig cfg0 ∧
    (0 : ℚ) = (1 : ℚ) * M₀.sin (2 * M₀.pi * 1 * ((1 : ℤ) : ℚ) + 0) := by
  refine ⟨by decide, ?_⟩
  exact (sequence_target_noise_formula M₀ 1 cfg0 "t" dsW 0 0
    ⟨0, 1, 1, 0⟩ [0] 0 0 (by decide) generate_M0_eval rfl rfl rfl rfl).1

/-! ### C5: what `stats.config` actually carries -/

/-- C5 counterexample: for a concrete generated dataset, the key list of
`stats.config` is exactly the six keys `seed`, `noiseStd`, `ampMin`,
`ampMax`, `freqMin`, `freqMax` — it does not contain `samples` or
`sequenceLength`, contradicting the claim that all eight
`GenerationConfig` fields are present. -/
theorem statsConfig_keys_counterexample :
    ((generate M₀ 1 cfg0 "t").map (fun d => d.stats.config.map Prod.fst)).getD []
      = ["seed", "noiseStd", "ampMin", "ampMax", "freqMin", "freqMax"]
    ∧ "samples" ∉
        ((generate M₀ 1 cfg0 "t").map (fun d => d.stats.config.map Prod.fst)).getD []
    ∧ "sequenceLength" ∉
        ((generate M₀ 1 cfg0 "t").map (fun d => d.stats.config.map Prod.fst)).getD [] := by
  rw [generate_M0_eval]
  exact ⟨rfl, by decide, by decide⟩

/-- C5 (amended): `stats.config` is a copy of only six of the eight input
fields — `seed`, `noiseStd`, `ampMin`, `ampMax`, `freqMin`, `freqMax`, each
with the value supplied as input; `samples` and `sequenceLength` are not in
`stats.config` but are recorded as `stats.samplesCount` and
`stats.sequenceLength` instead. -/
theorem statsConfig_contents (M : JsMath) (fuel : ℕ) (cfg : GenerationConfig)
    (now : String) (d : Dataset) (hgen : generate M fuel cfg now = some d) :
    d.stats.config
      = [("seed", (cfg.seed : ℚ)), ("noiseStd", cfg.noiseStd),
         ("ampMin", cfg.ampMin), ("ampMax", cfg.ampMax),
         ("freqMin", cfg.freqMin), ("freqMax", cfg.freqMax)]
    ∧ d.stats.samplesCount = cfg.samples
    ∧ d.stats.sequenceLength = cfg.sequenceLength := by
  unfold generate at hgen
  split at hgen
  · exact absurd hgen (by simp)
  · rw [Option.some.injEq] at hgen
    refine ⟨?_, ?_, ?_⟩ <;> rw [← hgen] <;> rfl

/-- Witness for the amended C5 at the concrete dataset `dsW`. -/
theorem statsConfig_contents_witness :
    dsW.stats.config
      = [("seed", (cfg0.seed : ℚ)), ("noiseStd", cfg0.noiseStd),
         ("ampMin", cfg0.ampMin), ("ampMax", cfg0.ampMax),
         ("freqMin", cfg0.freqMin), ("freqMax", cfg0.freqMax)]
    ∧ dsW.stats.samplesCount = cfg0.samples
    ∧ dsW.stats.sequenceLength = cfg0.sequenceLength :=
  statsConfig_contents M₀ 1 cfg0 "t" dsW generate_M0_eval

/-! ### C6: the subset sampler -/

theorem listSwap_perm (l : List ℕ) (i j : ℕ) : (listSwap l i j).Perm l := by
  unfold listSwap
  split
  · rename_i a b hi hj
    obtain ⟨hi', hli⟩ := List.getElem?_eq_some_iff.mp hi
    obtain ⟨hj', hlj⟩ := List.getElem?_eq_some_iff.mp hj
    have hj2 : j < (l.set i b).length := by simpa using hj'
    rw [List.perm_iff_count]
    intro x
    rw [List.count_set a x (l.set i b) j hj2, List.count_set b x l i hi']
    have hsetj : (l.set i b)[j] = b := by
      rw [List.getElem_set]
      split
      · rfl
      · exact hlj
    rw [hsetj, hli]
    have hmem : a ∈ l := by rw [← hli]; exact List.getElem_mem hi'
    by_cases hax : a = x
    · subst hax
      have hpos : 0 < List.count a l := List.count_pos_iff.mpr hmem
      by_cases hbx : b = a <;> simp [hbx] <;> omega
    · have hax' : (a == x) = false := beq_eq_false_iff_ne.mpr hax
      by_cases hbx : b = x <;> simp [hax', hbx] <;> omega
  · exact List.Perm.refl l

theorem fisherYatesAux_perm (rand : ℕ → ℚ) :
    ∀ (i k : ℕ) (l : List ℕ), (fisherYatesAux rand k l i).Perm l := by
  intro i
  induction i with
  | zero => intro k l; exact List.Perm.refl l
  | succ i ih =>
    intro k l
    exact (ih (k + 1) (listSwap l (i + 1) _)).trans (listSwap_perm l (i + 1) _)

theorem fisherYates_perm (rand : ℕ → ℚ) (l : List ℕ) :
    (fisherYates rand l).Perm l :=
  fisherYatesAux_perm rand _ 0 l

/-! Facts about binary64 rounding needed for the subset count. -/

theorem roundHalfEven_intCast (k : ℤ) : roundHalfEven (k : ℚ) = k := by
  unfold roundHalfEven
  rw [Int.floor_intCast]
  rw [if_pos (by push_cast; linarith : (k : ℚ) - (k : ℤ) < 1 / 2)]

theorem le_roundHalfEven (x : ℚ) : ⌊x⌋ ≤ roundHalfEven x := by
  unfold roundHalfEven
  split_ifs <;> omega

theorem roundHalfEven_le (x : ℚ) : ((roundHalfEven x : ℤ) : ℚ) ≤ x + 1 / 2 := by
  have h1 : (⌊x⌋ : ℚ) ≤ x := Int.floor_le x
  unfold roundHalfEven
  split_ifs with ha hb hc
  · linarith
  · push_cast
    linarith
  · linarith
  · push_cast
    linarith [not_lt.mp ha, not_lt.mp hb]

theorem two_cast_q : ((2 : ℕ) : ℚ) = (2 : ℚ) := by norm_num

theorem roundDouble_def_pos {q : ℚ} (hq : 0 < q) :
    roundDouble q
      = ((roundHalfEven (q * (2 : ℚ) ^ ((52 : ℤ) - Int.log 2 q)) : ℤ) : ℚ)
        * (2 : ℚ) ^ (Int.log 2 q - 52) := by
  unfold roundDouble
  rw [if_neg (ne_of_gt hq), if_pos hq]

theorem roundDouble_of_bounds (q : ℚ) (e : ℤ) (h1 : (2 : ℚ) ^ e ≤ q)
    (h2 : q < (2 : ℚ) ^ (e + 1)) :
    roundDouble q
      = ((roundHalfEven (q * (2 : ℚ) ^ ((52 : ℤ) - e)) : ℤ) : ℚ)
        * (2 : ℚ) ^ (e - 52) := by
  have hq : 0 < q := lt_of_lt_of_le (by positivity) h1
  have hlog : Int.log 2 q = e := by
    have hle : e ≤ Int.log 2 q := by
      refine (Int.zpow_le_iff_le_log (by norm_num) hq).mp ?_
      rw [two_cast_q]
      exact h1
    have hlt : Int.log 2 q < e + 1 := by
      refine (Int.lt_zpow_iff_log_lt (by norm_num) hq).mp ?_
      rw [two_cast_q]
      exact h2
    omega
  rw [roundDouble_def_pos hq, hlog]

theorem roundDouble_pos {q : ℚ} (hq : 0 < q) : 0 < roundDouble q := by
  rw [roundDouble_def_pos hq]
  have hbr : ((2 : ℕ) : ℚ) ^ Int.log 2 q ≤ q := Int.zpow_log_le_self (by norm_num) hq
  rw [two_cast_q] at hbr
  have hsplit : (2 : ℚ) ^ ((52 : ℤ))
      = (2 : ℚ) ^ Int.log 2 q * (2 : ℚ) ^ ((52 : ℤ) - Int.log 2 q) := by
    rw [← zpow_add₀ (two_ne_zero : (2 : ℚ) ≠ 0)]
    congr 1
    omega
  have hm : (1 : ℚ) ≤ q * (2 : ℚ) ^ ((52 : ℤ) - Int.log 2 q) := by
    have h2e : (0 : ℚ) < (2 : ℚ) ^ ((52 : ℤ) - Int.log 2 q) := by positivity
    have hle : (2 : ℚ) ^ ((52 : ℤ)) ≤ q * (2 : ℚ) ^ ((52 : ℤ) - Int.log 2 q) := by
      rw [hsplit]
      exact mul_le_mul_of_nonneg_right hbr h2e.le
    have h52 : (1 : ℚ) ≤ (2 : ℚ) ^ ((52 : ℤ)) := by norm_num
    linarith
  have hfl : (1 : ℤ) ≤ ⌊q * (2 : ℚ) ^ ((52 : ℤ) - Int.log 2 q)⌋ :=
    Int.le_floor.mpr (by exact_mod_cast hm)
  have hrhe : (0 : ℤ) < roundHalfEven (q * (2 : ℚ) ^ ((52 : ℤ) - Int.log 2 q)) := by
    have := le_roundHalfEven (q * (2 : ℚ) ^ ((52 : ℤ) - Int.log 2 q))
    omega
  exact mul_pos (by exact_mod_cast hrhe) (by positivity)

theorem roundDouble_le {q : ℚ} (hq : 0 < q) :
    roundDouble q ≤ q + (2 : ℚ) ^ (Int.log 2 q - 53) := by
  rw [roundDouble_def_pos hq]
  have h2e : (0 : ℚ) < (2 : ℚ) ^ (Int.log 2 q - 52) := by positivity
  have hrhe := roundHalfEven_le (q * (2 : ℚ) ^ ((52 : ℤ) - Int.log 2 q))
  have hmul := mul_le_mul_of_nonneg_right hrhe h2e.le
  refine le_trans hmul (le_of_eq ?_)
  have hexp1 : (2 : ℚ) ^ ((52 : ℤ) - Int.log 2 q) * (2 : ℚ) ^ (Int.log 2 q - 52) = 1 := by
    rw [← zpow_add₀ (two_ne_zero : (2 : ℚ) ≠ 0)]
    have h0 : (52 : ℤ) - Int.log 2 q + (Int.log 2 q - 52) = 0 := by omega
    rw [h0, zpow_zero]
  have hexp2 : (1 : ℚ) / 2 * (2 : ℚ) ^ (Int.log 2 q - 52) = (2 : ℚ) ^ (Int.log 2 q - 53) := by
    have hhalf : (1 : ℚ) / 2 = (2 : ℚ) ^ (-1 : ℤ) := by norm_num
    rw [hhalf, ← zpow_add₀ (two_ne_zero : (2 : ℚ) ≠ 0)]
    congr 1
    omega
  calc (q * (2 : ℚ) ^ ((52 : ℤ) - Int.log 2 q) + 1 / 2) * (2 : ℚ) ^ (Int.log 2 q - 52)
      = q * ((2 : ℚ) ^ ((52 : ℤ) - Int.log 2 q) * (2 : ℚ) ^ (Int.log 2 q - 52))
        + 1 / 2 * (2 : ℚ) ^ (Int.log 2 q - 52) := by ring
    _ = q + (2 : ℚ) ^ (Int.log 2 q - 53) := by rw [hexp1, hexp2, mul_one]

theorem roundDouble_natCast (n : ℕ) (h1 : 1 ≤ n) (h2 : n < 2 ^ 53) :
    roundDouble (n : ℚ) = n := by
  have hq : (0 : ℚ) < (n : ℚ) := by exact_mod_cast (by omega : 0 < n)
  have hbr1 : (2 : ℚ) ^ Int.log 2 (n : ℚ) ≤ (n : ℚ) := by
    have := Int.zpow_log_le_self (by norm_num : 1 < 2) hq
    rwa [two_cast_q] at this
  have hbr2 : (n : ℚ) < (2 : ℚ) ^ (Int.log 2 (n : ℚ) + 1) := by
    have := Int.lt_zpow_succ_log_self (by norm_num : 1 < 2) (n : ℚ)
    rwa [two_cast_q] at this
  have he0 : 0 ≤ Int.log 2 (n : ℚ) := by
    have h' : ((2 : ℕ) : ℚ) ^ (0 : ℤ) ≤ (n : ℚ) := by
      rw [two_cast_q, zpow_zero]
      exact_mod_cast h1
    exact (Int.zpow_le_iff_le_log (by norm_num) hq).mp h'
  have he52 : Int.log 2 (n : ℚ) ≤ 52 := by
    have hn53 : ((2 : ℕ) : ℚ) ^ (53 : ℤ) > (n : ℚ) := by
      rw [two_cast_q]
      have hcast : (n : ℚ) < ((2 ^ 53 : ℕ) : ℚ) := by exact_mod_cast h2
      calc (n : ℚ) < ((2 ^ 53 : ℕ) : ℚ) := hcast
        _ = (2 : ℚ) ^ (53 : ℤ) := by norm_num
    have := (Int.lt_zpow_iff_log_lt (by norm_num) hq).mp hn53
    omega
  rw [roundDouble_of_bounds (n : ℚ) (Int.log 2 (n : ℚ)) hbr1 hbr2]
  have hk' : (((52 - Int.log 2 (n : ℚ)).toNat : ℤ)) = 52 - Int.log 2 (n : ℚ) :=
    Int.toNat_of_nonneg (by omega)
  have hcast : (n : ℚ) * (2 : ℚ) ^ ((52 : ℤ) - Int.log 2 (n : ℚ))
      = (((n * 2 ^ (52 - Int.log 2 (n : ℚ)).toNat : ℕ) : ℤ) : ℚ) := by
    push_cast
    rw [← zpow_natCast (2 : ℚ) (52 - Int.log 2 (n : ℚ)).toNat, hk']
  rw [hcast, roundHalfEven_intCast]
  have hfin : (2 : ℚ) ^ ((52 : ℤ) - Int.log 2 (n : ℚ))
      * (2 : ℚ) ^ (Int.log 2 (n : ℚ) - 52) = 1 := by
    rw [← zpow_add₀ (two_ne_zero : (2 : ℚ) ≠ 0)]
    have h0 : (52 : ℤ) - Int.log 2 (n : ℚ) + (Int.log 2 (n : ℚ) - 52) = 0 := by omega
    rw [h0, zpow_zero]
  calc (((n * 2 ^ (52 - Int.log 2 (n : ℚ)).toNat : ℕ) : ℤ) : ℚ)
      * (2 : ℚ) ^ (Int.log 2 (n : ℚ) - 52)
      = (n : ℚ) * ((2 : ℚ) ^ ((52 : ℤ) - Int.log 2 (n : ℚ))
          * (2 : ℚ) ^ (Int.log 2 (n : ℚ) - 52)) := by
        push_cast
        rw [← zpow_natCast (2 : ℚ) (52 - Int.log 2 (n : ℚ)).toNat, hk']
        ring
    _ = (n : ℚ) := by rw [hfin, mul_one]

theorem roundDouble_one : roundDouble (1 : ℚ) = 1 := by
  have := roundDouble_natCast 1 (le_refl 1) (by norm_num)
  simpa using this

/-- For any real length `n < 2^32` (the JavaScript array-length bound) and
`p ∈ [1, 100]`, the floating-point count never exceeds `n`. -/
theorem subsetCount_le (n : ℕ) (p : ℤ) (hn : 1 ≤ n) (hn32 : n < 2 ^ 32)
    (hp1 : 1 ≤ p) (hp2 : p ≤ 100) : subsetCount n p ≤ n := by
  have hcl : clampPercent p = p := by unfold clampPercent; omega
  unfold subsetCount
  rw [hcl]
  by_cases hp : p = 100
  · subst hp
    have h100 : ((100 : ℤ) : ℚ) / 100 = 1 := by norm_num
    rw [h100, roundDouble_one, mul_one,
      roundDouble_natCast n hn (lt_of_lt_of_le hn32 (by norm_num)),
      Int.floor_natCast]
    omega
  · have hp99 : p ≤ 99 := by omega
    have hx1pos : (0 : ℚ) < (p : ℚ) / 100 := by
      have hp' : (1 : ℚ) ≤ (p : ℚ) := by exact_mod_cast hp1
      have : (0 : ℚ) < (p : ℚ) := by linarith
      positivity
    have hdpos : 0 < roundDouble ((p : ℚ) / 100) := roundDouble_pos hx1pos
    have hlog1 : Int.log 2 ((p : ℚ) / 100) ≤ -1 := by
      have hlt1 : ((p : ℚ) / 100) < ((2 : ℕ) : ℚ) ^ (0 : ℤ) := by
        rw [two_cast_q, zpow_zero, div_lt_one (by norm_num)]
        exact_mod_cast (by omega : p < (100 : ℤ))
      have := (Int.lt_zpow_iff_log_lt (by norm_num) hx1pos).mp hlt1
      omega
    have hdle : roundDouble ((p : ℚ) / 100) ≤ 1 := by
      have hb := roundDouble_le hx1pos
      have hsm : (2 : ℚ) ^ (Int.log 2 ((p : ℚ) / 100) - 53) ≤ (2 : ℚ) ^ (-54 : ℤ) :=
        zpow_le_zpow_right₀ (by norm_num) (by omega)
      have h54 : (2 : ℚ) ^ (-54 : ℤ) ≤ 1 / 100 := by norm_num
      have hple : (p : ℚ) / 100 ≤ 99 / 100 := by
        have : (p : ℚ) ≤ 99 := by exact_mod_cast hp99
        linarith
      linarith
    have hnpos : (0 : ℚ) < (n : ℚ) := by exact_mod_cast (by omega : 0 < n)
    have hx2pos : (0 : ℚ) < (n : ℚ) * roundDouble ((p : ℚ) / 100) :=
      mul_pos hnpos hdpos
    have hx2le : (n : ℚ) * roundDouble ((p : ℚ) / 100) ≤ (n : ℚ) :=
      mul_le_of_le_one_right hnpos.le hdle
    have hlog2 : Int.log 2 ((n : ℚ) * roundDouble ((p : ℚ) / 100)) ≤ 31 := by
      have h32 : (n : ℚ) < ((2 : ℕ) : ℚ) ^ (32 : ℤ) := by
        rw [two_cast_q]
        have hcast : (n : ℚ) < ((2 ^ 32 : ℕ) : ℚ) := by exact_mod_cast hn32
        calc (n : ℚ) < ((2 ^ 32 : ℕ) : ℚ) := hcast
          _ = (2 : ℚ) ^ (32 : ℤ) := by norm_num
      have := (Int.lt_zpow_iff_log_lt (by norm_num) hx2pos).mp
        (lt_of_le_of_lt hx2le h32)
      omega
    have hfl2 : roundDouble ((n : ℚ) * roundDouble ((p : ℚ) / 100)) < (n : ℚ) + 1 := by
      have hb := roundDouble_le hx2pos
      have hsm : (2 : ℚ) ^ (Int.log 2 ((n : ℚ) * roundDouble ((p : ℚ) / 100)) - 53)
          ≤ (2 : ℚ) ^ (-22 : ℤ) :=
        zpow_le_zpow_right₀ (by norm_num) (by omega)
      have h22 : (2 : ℚ) ^ (-22 : ℤ) < 1 := by norm_num
      linarith
    have hfloor : ⌊roundDouble ((n : ℚ) * roundDouble ((p : ℚ) / 100))⌋ ≤ (n : ℤ) := by
      have hlt : ⌊roundDouble ((n : ℚ) * roundDouble ((p : ℚ) / 100))⌋ < (n : ℤ) + 1 :=
        Int.floor_lt.mpr (by push_cast; linarith)
      omega
    omega

theorem roundHalfEven_058_scaled :
    roundHalfEven ((130604389193744384 : ℚ) / 25) = 5224175567749775 := by
  have hfl : ⌊(130604389193744384 : ℚ) / 25⌋ = 5224175567749775 := by norm_num
  unfold roundHalfEven
  rw [hfl]
  rw [if_pos (by norm_num)]

/-- `58 / 100` as an IEEE double is `0.57999999999999996…`, not `0.58`. -/
theorem roundDouble_058 :
    roundDouble ((58 : ℚ) / 100) = 5224175567749775 / 9007199254740992 := by
  rw [roundDouble_of_bounds ((58 : ℚ) / 100) (-1) (by norm_num) (by norm_num)]
  have hx : (58 : ℚ) / 100 * (2 : ℚ) ^ ((52 : ℤ) - (-1))
      = (130604389193744384 : ℚ) / 25 := by norm_num
  rw [hx, roundHalfEven_058_scaled]
  norm_num

theorem roundHalfEven_2899_scaled :
    roundHalfEven ((130604389193744375 : ℚ) / 16) = 8162774324609023 := by
  have hfl : ⌊(130604389193744375 : ℚ) / 16⌋ = 8162774324609023 := by norm_num
  unfold roundHalfEven
  rw [hfl]
  rw [if_pos (by norm_num)]

/-- `50 * (58 / 100)` as IEEE doubles is `28.999999999999996…`. -/
theorem roundDouble_2899 :
    roundDouble ((50 : ℚ) * (5224175567749775 / 9007199254740992))
      = 8162774324609023 / 281474976710656 := by
  have hq : (50 : ℚ) * (5224175567749775 / 9007199254740992)
      = 130604389193744375 / 4503599627370496 := by norm_num
  rw [hq, roundDouble_of_bounds ((130604389193744375 : ℚ) / 4503599627370496) 4
    (by norm_num) (by norm_num)]
  have hx : (130604389193744375 : ℚ) / 4503599627370496 * (2 : ℚ) ^ ((52 : ℤ) - 4)
      = (130604389193744375 : ℚ) / 16 := by norm_num
  rw [hx, roundHalfEven_2899_scaled]
  norm_num

theorem subsetCount_50_58 : subsetCount 50 58 = 28 := by
  unfold subsetCount
  have hcl : clampPercent 58 = 58 := by unfold clampPercent; omega
  rw [hcl]
  have hc1 : ((58 : ℤ) : ℚ) / 100 = (58 : ℚ) / 100 := by norm_num
  rw [hc1, roundDouble_058]
  have hc2 : ((50 : ℕ) : ℚ) * ((5224175567749775 : ℚ) / 9007199254740992)
      = (50 : ℚ) * (5224175567749775 / 9007199254740992) := by norm_num
  rw [hc2, roundDouble_2899]
  have hfl : ⌊(8162774324609023 : ℚ) / 281474976710656⌋ = 28 := by norm_num
  rw [hfl]
  rfl

/-- C6 counterexample: at `n = 50`, `p = 58` the code's IEEE double
arithmetic computes `50 * (58 / 100) = 28.999999999999996…`, so the subset
selection picks 28 samples, while the claimed exact count
`max(1, ⌊n * p / 100⌋)` is 29 — the claim as stated is false of the code. -/
theorem subset_count_float_counterexample :
    (subsetIndices (fun _ => 0) 50 58).length = 28
    ∧ (max 1 ⌊((50 : ℚ) * 58) / 100⌋).toNat = 29
    ∧ (subsetIndices (fun _ => 0) 50 58).length
        ≠ (max 1 ⌊((50 : ℚ) * 58) / 100⌋).toNat := by
  have h1 : (subsetIndices (fun _ => 0) 50 58).length = 28 := by
    have hperm := fisherYates_perm (fun _ => 0) (List.range 50)
    have hlen : (fisherYates (fun _ => 0) (List.range 50)).length = 50 :=
      hperm.length_eq.trans (List.length_range _)
    rw [subsetIndices, List.length_take, hlen, subsetCount_50_58]
    omega
  have h2 : (max 1 ⌊((50 : ℚ) * 58) / 100⌋).toNat = 29 := by
    have hfl : ⌊((50 : ℚ) * 58) / 100⌋ = 29 := by norm_num
    rw [hfl]
    rfl
  exact ⟨h1, h2, by rw [h1, h2]; omega⟩

/-- C6 (amended): For a dataset of `n ≥ 1` samples (with `n < 2^32`, the
JavaScript array-length bound, under which the length is exactly
representable as a double) and any percent `p ∈ [1, 100]`, the low-CPU
subset selection picks exactly `subsetCount n p` shuffled indices — the
count `max 1 ⌊fl(n * fl(p / 100))⌋` computed in IEEE binary64 arithmetic
as the source does, which can be one less than the exact-rational
`max 1 ⌊n * p / 100⌋` (at `n = 50`, `p = 58` the code selects 28, not 29).
The chosen indices are pairwise distinct and all in range; the selected
sequences and targets are index-aligned (position `k` of both comes from
the same chosen original index); and for `p = 100` the chosen indices are
a permutation of all original indices — every index exactly once. -/
theorem subset_sampling_spec (rand : ℕ → ℚ) (seqs : List (List ℚ))
    (tgts : List ℚ) (p : ℤ)
    (_hrand : ∀ k, 0 ≤ rand k ∧ rand k < 1)
    (hn : 1 ≤ seqs.length) (hn32 : seqs.length < 2 ^ 32)
    (hp1 : 1 ≤ p) (hp2 : p ≤ 100) :
    (subsetIndices rand seqs.length p).length = subsetCount seqs.length p
    ∧ (subsetIndices rand seqs.length p).Nodup
    ∧ (∀ idx ∈ subsetIndices rand seqs.length p, idx < seqs.length)
    ∧ (subsetSample rand seqs tgts p).1
        = (subsetIndices rand seqs.length p).map (fun idx => seqs.getD idx [])
    ∧ (subsetSample rand seqs tgts p).2
        = (subsetIndices rand seqs.length p).map (fun idx => tgts.getD idx 0)
    ∧ (p = 100 →
        (subsetIndices rand seqs.length p).Perm (List.range seqs.length)) := by
  have hperm : (fisherYates rand (List.range seqs.length)).Perm
      (List.range seqs.length) := fisherYates_perm rand _
  have hlen : (fisherYates rand (List.range seqs.length)).length = seqs.length :=
    hperm.length_eq.trans (List.length_range _)
  have hclamp : clampPercent p = p := by unfold clampPercent; omega
  have hcle : subsetCount seqs.length p ≤ seqs.length :=
    subsetCount_le seqs.length p hn hn32 hp1 hp2
  have hnodup : (fisherYates rand (List.range seqs.length)).Nodup :=
    hperm.symm.nodup (List.nodup_range seqs.length)
  refine ⟨?_, ?_, ?_, rfl, rfl, ?_⟩
  · rw [subsetIndices, List.length_take, hlen]
    omega
  · exact hnodup.sublist (List.take_sublist _ _)
  · intro idx hidx
    have hmem : idx ∈ fisherYates rand (List.range seqs.length) :=
      (List.take_sublist _ _).subset hidx
    exact List.mem_range.mp (hperm.subset hmem)
  · intro hp
    subst hp
    have hsc100 : subsetCount seqs.length 100 = seqs.length := by
      unfold subsetCount
      rw [hclamp]
      have h100 : ((100 : ℤ) : ℚ) / 100 = 1 := by norm_num
      rw [h100, roundDouble_one, mul_one,
        roundDouble_natCast seqs.length hn (lt_of_lt_of_le hn32 (by norm_num)),
        Int.floor_natCast]
      omega
    rw [subsetIndices, hsc100, List.take_of_length_le (le_of_eq hlen)]
    exact hperm

theorem subsetCount_2_50 : subsetCount 2 50 = 1 := by
  unfold subsetCount
  have hcl : clampPercent 50 = 50 := by unfold clampPercent; omega
  rw [hcl]
  have hc1 : ((50 : ℤ) : ℚ) / 100 = (1 : ℚ) / 2 := by norm_num
  rw [hc1]
  have hhalf : roundDouble ((1 : ℚ) / 2) = 1 / 2 := by
    rw [roundDouble_of_bounds ((1 : ℚ) / 2) (-1) (by norm_num) (by norm_num)]
    have hx : (1 : ℚ) / 2 * (2 : ℚ) ^ ((52 : ℤ) - (-1))
        = ((4503599627370496 : ℤ) : ℚ) := by norm_num
    rw [hx, roundHalfEven_intCast]
    norm_num
  rw [hhalf]
  have hc2 : ((2 : ℕ) : ℚ) * ((1 : ℚ) / 2) = 1 := by norm_num
  rw [hc2, roundDouble_one, Int.floor_one]
  rfl

/-- Witness for the amended C6 on a concrete two-sample dataset with
`percent = 50` (where the double arithmetic is exact and one sample is
selected). -/
theorem subset_sampling_spec_witness :
    (subsetIndices (fun _ => 0) 2 50).length = subsetCount 2 50
    ∧ (subsetIndices (fun _ => 0) 2 50).Nodup
    ∧ subsetCount 2 50 = 1 := by
  have h := subset_sampling_spec (fun _ => 0) ([[1], [2]] : List (List ℚ))
    ([3, 4] : List ℚ) 50 (fun _ => ⟨le_refl 0, by norm_num⟩)
    (by decide) (by decide) (by decide) (by decide)
  exact ⟨h.1, h.2.1, subsetCount_2_50⟩

/-! ### C7: no guard against a zero standard deviation -/

/-- C7 (code evaluation): the training-preparation path contains no check of
`stats.std`.  For the concrete generated dataset `dsW`, whose standard
deviation is exactly `0`, `prepareTraining` (the `handleStartTraining`
validation followed by `trainModel`'s subset selection and z-score
normalization) succeeds — it raises no `DegenerateDatasetError` or any other
error; the JavaScript source divides by `std = 0`, silently producing
non-finite values. -/
theorem no_degenerate_std_guard :
    ((generate M₀ 1 cfg0 "t").map
      (fun d => (d.stats.std, (prepareTraining (fun _ => 0) d tcfg0).isOk)))
      = some (0, true) := by
  rw [generate_M0_eval]
  norm_num [prepareTraining, validateTrainingConfig, tcfg0, dsW,
    Except.isOk, Except.toBool]

/-! ### C8/C10: stop-flag semantics of the epoch loop -/

theorem trainLoopAux_flagged (env : JsEnv) (fit : ℕ → JSVal)
    (stopDuring : ℕ → Bool) (e r : ℕ) :
    trainLoopAux env fit stopDuring e r true
      = { trainLosses := [], valLosses := [], trainMAEs := [], valMAEs := [],
          status := .stopped } := by
  cases r <;> rfl

theorem trainLoopAux_stop_profile (env : JsEnv) (fit : ℕ → JSVal)
    (stopDuring : ℕ → Bool) :
    ∀ (k e r : ℕ), k < r → stopDuring (e + k) = true →
      (∀ j, j < k → stopDuring (e + j) = false) →
      (trainLoopAux env fit stopDuring e r false).trainLosses.length = k + 1
      ∧ (trainLoopAux env fit stopDuring e r false).valLosses.length = k + 1
      ∧ (trainLoopAux env fit stopDuring e r false).trainMAEs.length = k + 1
      ∧ (trainLoopAux env fit stopDuring e r false).valMAEs.length = k + 1
      ∧ (trainLoopAux env fit stopDuring e r false).trainLosses[k]?
          = some (recordedTrainLoss env (fit (e + k)))
      ∧ (trainLoopAux env fit stopDuring e r false).valLosses[k]?
          = some (recordedValLoss env (fit (e + k)))
      ∧ (trainLoopAux env fit stopDuring e r false).trainMAEs[k]?
          = some (recordedTrainMAE env (fit (e + k)))
      ∧ (trainLoopAux env fit stopDuring e r false).valMAEs[k]?
          = some (recordedValMAE env (fit (e + k)))
      ∧ (trainLoopAux env fit stopDuring e r false).status = .stopped := by
  intro k
  induction k with
  | zero =>
    intro e r hr hstop _
    obtain ⟨r', rfl⟩ : ∃ r', r = r' + 1 := ⟨r - 1, by omega⟩
    have hse : stopDuring e = true := by simpa using hstop
    simp [trainLoopAux, hse, handleStopTraining, trainLoopAux_flagged]
  | succ k ih =>
    intro e r hr hstop hfirst
    obtain ⟨r', rfl⟩ : ∃ r', r = r' + 1 := ⟨r - 1, by omega⟩
    have hse : stopDuring e = false := by
      have := hfirst 0 (by omega); simpa using this
    have hstop' : stopDuring ((e + 1) + k) = true := by
      have := hstop; rwa [show e + (k + 1) = (e + 1) + k by omega] at this
    have hfirst' : ∀ j, j < k → stopDuring ((e + 1) + j) = false := by
      intro j hj
      have := hfirst (j + 1) (by omega)
      rwa [show e + (j + 1) = (e + 1) + j by omega] at this
    obtain ⟨h1, h2, h3, h4, h5, h6, h7, h8, h9⟩ := ih (e + 1) r' (by omega) hstop' hfirst'
    have hee : (e + 1) + k = e + (k + 1) := by omega
    rw [hee] at h5 h6 h7 h8
    simp only [trainLoopAux, hse, h1, h2, h3, h4, h9, Bool.false_eq_true,
      if_false, List.length_cons, List.getElem?_cons_succ, and_true, and_self,
      true_and]
    exact ⟨h5, h6, h7, h8⟩

/-- C8: If the stop request arrives during epoch `k` (and no earlier), the
in-flight epoch `k` still completes and its four metric values are recorded
(the flag is only checked between epochs), no epoch beyond `k` is ever
recorded, and the run terminates in the Stopped state. -/
theorem stop_request_semantics (env : JsEnv) (fit : ℕ → JSVal)
    (stopDuring : ℕ → Bool) (epochs k : ℕ) (prev : Bool)
    (hk : k < epochs) (hstop : stopDuring k = true)
    (hfirst : ∀ j, j < k → stopDuring j = false) :
    (trainModel env fit stopDuring epochs prev).trainLosses.length = k + 1
    ∧ (trainModel env fit stopDuring epochs prev).valLosses.length = k + 1
    ∧ (trainModel env fit stopDuring epochs prev).trainMAEs.length = k + 1
    ∧ (trainModel env fit stopDuring epochs prev).valMAEs.length = k + 1
    ∧ (trainModel env fit stopDuring epochs prev).trainLosses[k]?
        = some (recordedTrainLoss env (fit k))
    ∧ (trainModel env fit stopDuring epochs prev).valLosses[k]?
        = some (recordedValLoss env (fit k))
    ∧ (trainModel env fit stopDuring epochs prev).trainMAEs[k]?
        = some (recordedTrainMAE env (fit k))
    ∧ (trainModel env fit stopDuring epochs prev).valMAEs[k]?
        = some (recordedValMAE env (fit k))
    ∧ (trainModel env fit stopDuring epochs prev).status = .stopped := by
  have h := trainLoopAux_stop_profile env fit stopDuring k 0 epochs hk
    (by simpa using hstop) (fun j hj => by simpa using hfirst j hj)
  simpa [trainModel] using h

/-- Witness for C8: three configured epochs, stop requested during epoch 1:
exactly epochs 0 and 1 are recorded and the run is Stopped. -/
theorem stop_request_semantics_witness :
    (trainModel env₀ (fun _ => JSVal.undefined) (fun j => j == 1) 3 false).trainLosses.length = 2
    ∧ (trainModel env₀ (fun _ => JSVal.undefined) (fun j => j == 1) 3 false).status
        = RunStatus.stopped := by
  have h := stop_request_semantics env₀ (fun _ => JSVal.undefined) (fun j => j == 1) 3 1 false
    (by omega) rfl (fun j hj => by
      have hj0 : j = 0 := by omega
      subst hj0; rfl)
  exact ⟨h.1, h.2.2.2.2.2.2.2.2⟩

/-! ### C9: what the metric coercion can record -/

/-- C9 counterexample: when the external fit result carries `loss` as a
nested array whose innermost element is a string, the value recorded on
`trainLosses` after one epoch is that raw string — `_extractHistoryMetric`
unwraps one array level and the "Ensure numbers" coercion records an array's
last element without coercion — so a non-numeric value enters the history. -/
theorem metric_history_nonnumeric_counterexample :
    ((trainModel env₀ (fun _ => badHistory) (fun _ => false) 1 false).trainLosses.all
      isNumber) = false := by
  rfl

theorem ensureNumber_safe (env : JsEnv) (v : JSVal) (h : safeExtract v) :
    isNumber (ensureNumber env v) = true := by
  rcases h with h | h <;>
    cases v <;>
    simp_all [ensureNumber, isNumber, isArray]

theorem trainLoopAux_mem_recorded (env : JsEnv) (fit : ℕ → JSVal)
    (stopDuring : ℕ → Bool) :
    ∀ (r e : ℕ) (flag : Bool),
      (∀ v ∈ (trainLoopAux env fit stopDuring e r flag).trainLosses,
        ∃ j, v = recordedTrainLoss env (fit j))
      ∧ (∀ v ∈ (trainLoopAux env fit stopDuring e r flag).valLosses,
          ∃ j, v = recordedValLoss env (fit j))
      ∧ (∀ v ∈ (trainLoopAux env fit stopDuring e r flag).trainMAEs,
          ∃ j, v = recordedTrainMAE env (fit j))
      ∧ (∀ v ∈ (trainLoopAux env fit stopDuring e r flag).valMAEs,
          ∃ j, v = recordedValMAE env (fit j)) := by
  intro r
  induction r with
  | zero =>
    intro e flag
    refine ⟨?_, ?_, ?_, ?_⟩ <;> intro v hv <;> simp [trainLoopAux] at hv
  | succ r ih =>
    intro e flag
    by_cases hf : flag = true
    · subst hf
      refine ⟨?_, ?_, ?_, ?_⟩ <;> intro v hv <;> simp [trainLoopAux] at hv
    · have hf' : flag = false := by simpa using hf
      subst hf'
      obtain ⟨ih1, ih2, ih3, ih4⟩ :=
        ih (e + 1) (if stopDuring e then handleStopTraining false else false)
      refine ⟨?_, ?_, ?_, ?_⟩ <;> intro v hv <;>
        simp only [trainLoopAux, Bool.false_eq_true, if_false,
          List.mem_cons] at hv
      · rcases hv with rfl | hv
        · exact ⟨e, rfl⟩
        · exact ih1 v hv
      · rcases hv with rfl | hv
        · exact ⟨e, rfl⟩
        · exact ih2 v hv
      · rcases hv with rfl | hv
        · exact ⟨e, rfl⟩
        · exact ih3 v hv
      · rcases hv with rfl | hv
        · exact ⟨e, rfl⟩
        · exact ih4 v hv

/-- C9 (amended): provided every extracted metric value is of a safe shape —
not an array whose last element is absent or non-numeric (in particular any
scalar, tensor, missing key, or flat array of numbers is safe) — every value
appended to the four history arrays during a run is numeric; extraction
falls back through the fixed priority order (primary key `val_loss`, then
alternate key `valLoss`), and an extraction that yields `undefined` is
coerced to the hard default `0`.  Without the shape proviso the claim fails
(see the nested-array counterexample). -/
theorem metric_history_numeric (env : JsEnv) (fit : ℕ → JSVal)
    (stopDuring : ℕ → Bool) (epochs : ℕ) (prev : Bool)
    (hshape : ∀ e, safeExtract (extractTrainLoss (fit e))
      ∧ safeExtract (extractValLoss (fit e))
      ∧ safeExtract (extractTrainMAE (fit e))
      ∧ safeExtract (extractValMAE (fit e))) :
    (∀ v ∈ (trainModel env fit stopDuring epochs prev).trainLosses,
      isNumber v = true)
    ∧ (∀ v ∈ (trainModel env fit stopDuring epochs prev).valLosses,
        isNumber v = true)
    ∧ (∀ v ∈ (trainModel env fit stopDuring epochs prev).trainMAEs,
        isNumber v = true)
    ∧ (∀ v ∈ (trainModel env fit stopDuring epochs prev).valMAEs,
        isNumber v = true)
    ∧ (∀ h : JSVal, isUndef (extractHistoryMetric h "val_loss") = false →
        extractValLoss h = extractHistoryMetric h "val_loss")
    ∧ (∀ h : JSVal, isUndef (extractHistoryMetric h "val_loss") = true →
        extractValLoss h = extractHistoryMetric h "valLoss")
    ∧ ensureNumber env .undefined = .num 0 := by
  obtain ⟨m1, m2, m3, m4⟩ := trainLoopAux_mem_recorded env fit stopDuring epochs 0 false
  refine ⟨?_, ?_, ?_, ?_, ?_, ?_, rfl⟩
  · intro v hv
    obtain ⟨j, rfl⟩ := m1 v hv
    exact ensureNumber_safe env _ (hshape j).1
  · intro v hv
    obtain ⟨j, rfl⟩ := m2 v hv
    exact ensureNumber_safe env _ (hshape j).2.1
  · intro v hv
    obtain ⟨j, rfl⟩ := m3 v hv
    exact ensureNumber_safe env _ (hshape j).2.2.1
  · intro v hv
    obtain ⟨j, rfl⟩ := m4 v hv
    exact ensureNumber_safe env _ (hshape j).2.2.2
  · intro h hu
    simp [extractValLoss, hu]
  · intro h hu
    simp [extractValLoss, hu]

/-- Witness for the amended C9: a run over a well-formed fit history records
only numbers. -/
theorem metric_history_numeric_witness :
    ((trainModel env₀ (fun _ => goodHistory) (fun _ => false) 1 false).trainLosses.all
      isNumber) = true := by
  have h := (metric_history_numeric env₀ (fun _ => goodHistory) (fun _ => false) 1 false
    (fun _ =>
      (by decide : safeExtract (extractTrainLoss goodHistory)
        ∧ safeExtract (extractValLoss goodHistory)
        ∧ safeExtract (extractTrainMAE goodHistory)
        ∧ safeExtract (extractValMAE goodHistory)))).1
  exact List.all_eq_true.mpr (fun v hv => h v hv)

/-! ### C10: the stop flag is reset at the start of every run -/

/-- C10: `trainModel` resets `this.stopTraining` to `false` (line 516)
before entering the epoch loop, so the run's outcome is independent of any
stale stop flag `prev` (a stop requested before the run never cancels it),
and whenever at least one epoch is configured, epoch 0 executes and its
metrics are recorded. -/
theorem stop_flag_reset (env : JsEnv) (fit : ℕ → JSVal) (stopDuring : ℕ → Bool)
    (epochs : ℕ) (prev : Bool) (h : 1 ≤ epochs) :
    trainModel env fit stopDuring epochs prev
      = trainModel env fit stopDuring epochs false
    ∧ 1 ≤ (trainModel env fit stopDuring epochs prev).trainLosses.length
    ∧ (trainModel env fit stopDuring epochs prev).trainLosses[0]?
        = some (recordedTrainLoss env (fit 0)) := by
  obtain ⟨r, rfl⟩ : ∃ r, epochs = r + 1 := ⟨epochs - 1, by omega⟩
  refine ⟨rfl, ?_, ?_⟩ <;> simp [trainModel, trainLoopAux]

/-- Witness for C10: a stale stop flag and a stop request during epoch 0
still let epoch 0 run. -/
theorem stop_flag_reset_witness :
    trainModel env₀ (fun _ => JSVal.undefined) (fun _ => true) 1 true
      = trainModel env₀ (fun _ => JSVal.undefined) (fun _ => true) 1 false
    ∧ 1 ≤ (trainModel env₀ (fun _ => JSVal.undefined) (fun _ => true) 1 true).trainLosses.length
    ∧ (trainModel env₀ (fun _ => JSVal.undefined) (fun _ => true) 1 true).trainLosses[0]?
        = some (recordedTrainLoss env₀ (JSVal.undefined)) :=
  stop_flag_reset env₀ (fun _ => JSVal.undefined) (fun _ => true) 1 true (by omega)
